import Mathlib

/-!
Shallow embedding of the ncplot7py motion/engine core:
`domain/cnc_state.py`, `domain/handlers/motion.py`, and
`infrastructure/machines/stateful_iso_turn_control.py`.
Axis dictionaries are modelled as partial maps `String → Option ℝ`
(`none` = key absent); Python floats are modelled as real numbers.
-/

namespace NCPlot

/-- Axis dictionary: Python `Dict[str, float]` as a partial map. -/
abbrev AxisMap := String → Option ℝ

/-- `shared/point.py` Point (six coordinates). -/
structure Point where
  x : ℝ
  y : ℝ
  z : ℝ
  a : ℝ
  b : ℝ
  c : ℝ

/-- `shared/nc_nodes.py` NCCommandNode: parameter literals are modelled as
their `_to_float` values (the handler converts every literal with
`_to_float` before use). -/
structure NCCommandNode where
  g_code : List String
  m_code : List String
  command_parameter : List (String × ℝ)
  loop_command : String

/-- `domain/cnc_state.py` CNCState. -/
structure CNCState where
  modal_groups : String → Option String
  axes : AxisMap
  offsets : AxisMap
  axis_multipliers : AxisMap
  axis_override_feeds : AxisMap
  feed_rate : Option ℝ
  spindle_speed : Option ℝ
  tool_radius : Option ℝ
  tool_quadrant : Option ℤ
  parameters : String → Option ℝ
  dddp_set : String → Option ℝ
  line_number : ℤ
  loop_command : List String

/-- Default-constructed `CNCState()` (axes default `X,Y,Z ↦ 0.0`). -/
noncomputable def initState : CNCState where
  modal_groups := fun _ => none
  axes := fun ax => if ax = "X" ∨ ax = "Y" ∨ ax = "Z" then some 0 else none
  offsets := fun _ => none
  axis_multipliers := fun _ => none
  axis_override_feeds := fun _ => none
  feed_rate := none
  spindle_speed := none
  tool_radius := none
  tool_quadrant := none
  parameters := fun _ => none
  dddp_set := fun _ => none
  line_number := 0
  loop_command := []

/-- `CNCState.get_axis`: `self.axes.get(name, 0.0)`. -/
noncomputable def CNCState.get_axis (s : CNCState) (name : String) : ℝ :=
  (s.axes name).getD 0

/-- `CNCState.update_axes`: sets every key of `updates` in `axes`. -/
def CNCState.update_axes (s : CNCState) (updates : AxisMap) : CNCState :=
  { s with axes := fun ax => match updates ax with
      | some v => some v
      | none => s.axes ax }

/-- `CNCState.get_modal`. -/
def CNCState.get_modal (s : CNCState) (group : String) : Option String :=
  s.modal_groups group

/-- `CNCState.resolve_target`: resolved absolute coordinates over the union
of the axes keys and the target-spec keys. -/
noncomputable def CNCState.resolve_target (s : CNCState) (target_spec : AxisMap)
    (absolute : Bool) : AxisMap :=
  fun ax =>
    if (s.axes ax).isSome || (target_spec ax).isSome then
      if absolute then
        some ((target_spec ax).getD (s.get_axis ax))
      else
        some (s.get_axis ax + (target_spec ax).getD 0)
    else none

/-- `CNCState.compute_distance` over a given axes list (`s ** 0.5` on a sum
of squares is the square root). -/
noncomputable def compute_distance (a b : AxisMap) (axes : List String) : ℝ :=
  Real.sqrt (axes.foldl (fun acc ax => acc + ((a ax).getD 0 - (b ax).getD 0) ^ 2) 0)

/-- Python `str.upper` on the letters appearing in NC programs. -/
def strUpper (s : String) : String := ⟨s.data.map Char.toUpper⟩

/-- `MotionHandler.handle` lines 38-48: scan `node.g_code` for a motion code;
each of the four `if` tests overwrites `interp_mode` in turn. -/
def interpMode (node : NCCommandNode) : Option String :=
  node.g_code.foldl
    (fun acc g =>
      let acc := if strUpper g = "G00" ∨ strUpper g = "G0" ∨ strUpper g = "G0 " then
        some "G00" else acc
      let acc := if strUpper g = "G01" ∨ strUpper g = "G1" then some "G01" else acc
      let acc := if strUpper g = "G02" ∨ strUpper g = "G2" then some "G02" else acc
      if strUpper g = "G03" ∨ strUpper g = "G3" then some "G03" else acc)
    none

/-- `MotionHandler.handle` lines 62-73: build `target_spec` from the node
parameters; `X..C` are stored under their own letter, `U/V/W` are stored
under `X/Y/Z`; other letters are skipped. Later entries overwrite earlier
ones as in a Python dict comprehension. -/
noncomputable def buildTargetSpec (params : List (String × ℝ)) : AxisMap :=
  params.foldl
    (fun spec kv =>
      let key := strUpper kv.1
      if key = "X" ∨ key = "Y" ∨ key = "Z" ∨ key = "A" ∨ key = "B" ∨ key = "C" then
        fun ax => if ax = key then some kv.2 else spec ax
      else if key = "U" then fun ax => if ax = "X" then some kv.2 else spec ax
      else if key = "V" then fun ax => if ax = "Y" then some kv.2 else spec ax
      else if key = "W" then fun ax => if ax = "Z" then some kv.2 else spec ax
      else spec)
    (fun _ => none)

/-- `MotionHandler.handle` line 76: `params = {k.upper(): _to_float(v) ...}`. -/
noncomputable def paramsMap (ps : List (String × ℝ)) : String → Option ℝ :=
  ps.foldl (fun m kv => fun key => if key = strUpper kv.1 then some kv.2 else m key)
    (fun _ => none)

/-- `MotionHandler.handle` lines 57-60: `absolute_mode` is `False` exactly
when the `distance` modal is a truthy string whose upper case is `G91`. -/
def absoluteMode (st : CNCState) : Bool :=
  match st.get_modal "distance" with
  | none => true
  | some dm => if dm = "" then true else !(strUpper dm == "G91")

/-- `feed = state.feed_rate or 1.0` (Python `or`: `None` and `0.0` give 1.0). -/
noncomputable def effectiveFeed (f : Option ℝ) : ℝ :=
  match f with
  | none => 1
  | some v => if v = 0 then 1 else v

/-- The single point emitted by `_linear_interpolate` when distance ≤ 0:
each coordinate is `end.get(k, 0.0)`. -/
noncomputable def endPosition (endm : AxisMap) : Point where
  x := (endm "X").getD 0
  y := (endm "Y").getD 0
  z := (endm "Z").getD 0
  a := (endm "A").getD 0
  b := (endm "B").getD 0
  c := (endm "C").getD 0

/-- `MotionHandler._linear_interpolate`. -/
noncomputable def _linear_interpolate (max_segment : ℝ) (start endm : AxisMap)
    (st : CNCState) : List Point × ℝ :=
  let dist := compute_distance start endm ["X", "Y", "Z"]
  if dist ≤ 0 then
    ([endPosition endm], 0)
  else
    let n : ℕ := (max 1 ⌈dist / max_segment⌉).toNat
    let feed := effectiveFeed st.feed_rate
    let feed_mm_s := feed / 60
    let duration := if feed_mm_s > 0 then dist / feed_mm_s else 0
    let points := (List.range n).map (fun i =>
      let t : ℝ := ((i + 1 : ℕ) : ℝ) / (n : ℝ)
      let sx := (start "X").getD 0
      let sy := (start "Y").getD 0
      let sz := (start "Z").getD 0
      { x := sx + ((endm "X").getD sx - sx) * t
        y := sy + ((endm "Y").getD sy - sy) * t
        z := sz + ((endm "Z").getD sz - sz) * t
        a := (endm "A").getD ((start "A").getD 0)
        b := (endm "B").getD ((start "B").getD 0)
        c := (endm "C").getD ((start "C").getD 0) : Point })
    (points, duration)

/-- `math.atan2 y x` via the complex argument (range `(-π, π]`, `atan2 0 0 = 0`). -/
noncomputable def atan2 (y x : ℝ) : ℝ := Complex.arg { re := x, im := y }

/-- `_circular_interpolate` lines 128-152: determine the arc center, or fail. -/
noncomputable def arcCenter (sx sy ex ey : ℝ) (params : String → Option ℝ)
    (cw : Bool) : Except String (ℝ × ℝ) :=
  if (params "I").isSome ∨ (params "J").isSome then
    .ok (sx + (params "I").getD 0, sy + (params "J").getD 0)
  else if (params "R").isSome ∧ (params "R").getD 0 ≠ 0 then
    let r := (params "R").getD 0
    let mx := (sx + ex) / 2
    let my := (sy + ey) / 2
    let dx := ex - sx
    let dy := ey - sy
    let d2 := dx * dx + dy * dy
    if d2 = 0 then .error "Invalid arc with zero chord length"
    else
      let h := Real.sqrt (max 0 (r * r - d2 / 4)) / Real.sqrt d2
      if cw then .ok (mx - h * dy, my + h * dx) else .ok (mx + h * dy, my - h * dx)
  else .error "Arc requires I/J or R parameter"

/-- `_circular_interpolate` lines 156-162: sweep angle normalisation, two
sequential `if` statements. -/
noncomputable def sweepAngle (a0 a1 : ℝ) (cw : Bool) : ℝ :=
  let da := a1 - a0
  let da := if cw = true ∧ da > 0 then da - 2 * Real.pi else da
  if cw = false ∧ da < 0 then da + 2 * Real.pi else da

/-- The normalised sweep of a circular move with the given center, start and
end taken from the axis maps as in `_circular_interpolate`. -/
noncomputable def arcSweep (start endm : AxisMap) (cw : Bool) (cx cy : ℝ) : ℝ :=
  let sx := (start "X").getD 0
  let sy := (start "Y").getD 0
  let ex := (endm "X").getD sx
  let ey := (endm "Y").getD sy
  sweepAngle (atan2 (sy - cy) (sx - cx)) (atan2 (ey - cy) (ex - cx)) cw

/-- `arc_length = abs(da) * math.hypot(sx - cx, sy - cy)`. -/
noncomputable def arc_length (start endm : AxisMap) (cw : Bool) (cx cy : ℝ) : ℝ :=
  |arcSweep start endm cw cx cy| *
    Real.sqrt (((start "X").getD 0 - cx) ^ 2 + ((start "Y").getD 0 - cy) ^ 2)

/-- `_circular_interpolate` lines 154-186 after the center is known: emit the
arc points and the duration. -/
noncomputable def arcEmit (max_segment : ℝ) (start endm : AxisMap) (st : CNCState)
    (cw : Bool) (cx cy : ℝ) : List Point × ℝ :=
  let sx := (start "X").getD 0
  let sy := (start "Y").getD 0
  let a0 := atan2 (sy - cy) (sx - cx)
  let da := arcSweep start endm cw cx cy
  let radius := Real.sqrt ((sx - cx) ^ 2 + (sy - cy) ^ 2)
  let len := arc_length start endm cw cx cy
  let n : ℕ := (max 2 ⌈len / max_segment⌉).toNat
  let feed := effectiveFeed st.feed_rate
  let feed_mm_s := feed / 60
  let duration := if feed_mm_s > 0 then len / feed_mm_s else 0
  let points := (List.range n).map (fun i =>
    let t : ℝ := ((i + 1 : ℕ) : ℝ) / (n : ℝ)
    let theta := a0 + da * t
    let sz := (start "Z").getD 0
    { x := cx + Real.cos theta * radius
      y := cy + Real.sin theta * radius
      z := sz + ((endm "Z").getD sz - sz) * t
      a := (endm "A").getD ((start "A").getD 0)
      b := (endm "B").getD ((start "B").getD 0)
      c := (endm "C").getD ((start "C").getD 0) : Point })
  (points, duration)

/-- The squared chord length `d2 = dx*dx + dy*dy` of a circular move, taken
from the axis maps exactly as `_circular_interpolate` reads them. -/
noncomputable def chord2 (start endm : AxisMap) : ℝ :=
  let sx := (start "X").getD 0
  let sy := (start "Y").getD 0
  let ex := (endm "X").getD sx
  let ey := (endm "Y").getD sy
  (ex - sx) * (ex - sx) + (ey - sy) * (ey - sy)

/-- `MotionHandler._circular_interpolate`: center determination then emission. -/
noncomputable def _circular_interpolate (max_segment : ℝ) (start endm : AxisMap)
    (params : String → Option ℝ) (st : CNCState) (cw : Bool) :
    Except String (List Point × ℝ) :=
  let sx := (start "X").getD 0
  let sy := (start "Y").getD 0
  let ex := (endm "X").getD sx
  let ey := (endm "Y").getD sy
  match arcCenter sx sy ex ey params cw with
  | .error e => .error e
  | .ok c => .ok (arcEmit max_segment start endm st cw c.1 c.2)

/-- `MotionHandler.handle`. The motion handler is the terminal link of the
canal's chain, so delegation for a non-motion node returns `(None, None)`
with the state untouched. -/
noncomputable def handle (max_segment : ℝ) (node : NCCommandNode) (state : CNCState) :
    Except String (Option (List Point × ℝ) × CNCState) :=
  match interpMode node with
  | none => .ok (none, state)
  | some im =>
    let start := state.axes
    let target_spec := buildTargetSpec node.command_parameter
    let resolved := state.resolve_target target_spec (absoluteMode state)
    let params := paramsMap node.command_parameter
    let result : Except String (List Point × ℝ) :=
      if im = "G01" ∨ im = "G00" then
        .ok (_linear_interpolate max_segment start resolved state)
      else
        _circular_interpolate max_segment start resolved params state (im = "G02")
    match result with
    | .error e => .error e
    | .ok pd => .ok (some pd, state.update_axes resolved)

/-- `MotionHandler.handle` lines 80-88 restricted to the state effect:
axes become the resolved target. -/
noncomputable def moveAxes (st : CNCState) (spec : AxisMap) (absolute : Bool) : CNCState :=
  st.update_axes (st.resolve_target spec absolute)

/-- `isErr e` is `true` exactly when the Python code raised. -/
def isErr {α : Type _} : Except String α → Bool
  | .error _ => true
  | .ok _ => false

/-- `StatefulIsoTurnCanal.run_nc_code_list` line 106:
`max_steps = max(10000, len(self._nodes) * 100)`. -/
def max_steps (n : ℕ) : ℕ := max 10000 (n * 100)

/-- `dur or 0.0` when appending to the tool path (`None` and `0.0` become `0.0`). -/
noncomputable def durOr0 : Option ℝ → ℝ
  | none => 0
  | some v => if v = 0 then 0 else v

/-- The chain seen from the engine loop: a node index, the state and the
current next-pointer table go in, an optional emission, the new state and
the (possibly rewritten) pointer table come out. The canal's full chain
(variable, control-flow, modal-group and motion handlers) instantiates this;
the control-flow handlers are the ones that rewrite pointers. -/
abbrev EngineStep :=
  ℕ → CNCState → (ℕ → Option ℕ) →
    Except String (Option (List Point × Option ℝ) × CNCState × (ℕ → Option ℕ))

/-- `StatefulIsoTurnCanal.run_nc_code_list` lines 107-118: the `while` loop.
`fuel = max_steps - steps` so `fuel = 0` is `steps < max_steps` failing;
the returned ℕ counts executed loop bodies. On `next_node is node` the loop
breaks; handler exceptions propagate. No error is produced when the fuel
runs out: the loop just stops. -/
noncomputable def runLoop (step : EngineStep) :
    Option ℕ → CNCState → (ℕ → Option ℕ) → List (List Point × ℝ) → ℕ → ℕ →
      Except String (List (List Point × ℝ) × ℕ)
  | none, _, _, path, _, steps => .ok (path, steps)
  | some _, _, _, path, 0, steps => .ok (path, steps)
  | some i, st, ptr, path, fuel + 1, steps =>
    match step i st ptr with
    | .error e => .error e
    | .ok (emit, st', ptr') =>
      let path' := match emit with
        | none => path
        | some pd => path ++ [(pd.1, durOr0 pd.2)]
      let nxt := ptr' i
      if nxt = some i then .ok (path', steps + 1)
      else runLoop step nxt st' ptr' path' fuel (steps + 1)

/-- `StatefulIsoTurnCanal.run_nc_code_list`: nodes are identified by their
index; the linking loop sets `_next_ncCode` of node `i` to node `i+1` and
leaves the last node's pointer unset (`getattr` default `None`). -/
noncomputable def run_nc_code_list (step : EngineStep) (numNodes : ℕ) (st : CNCState) :
    Except String (List (List Point × ℝ) × ℕ) :=
  let ptr : ℕ → Option ℕ := fun i => if i + 1 < numNodes then some (i + 1) else none
  let node0 : Option ℕ := if 0 < numNodes then some 0 else none
  runLoop step node0 st ptr [] (max_steps numNodes) 0

/-- A canal as seen through the `NCCanal` interface: its name, its stored
tool path and its stored node list. -/
structure Canal where
  name : String
  tool_path : List (List Point × ℝ)
  nodes : List NCCommandNode

/-- A fresh `StatefulIsoTurnCanal(name)`. -/
def mkCanal (nm : String) : Canal where
  name := nm
  tool_path := []
  nodes := []

/-- `StatefulIsoTurnNCControl`: `count_of_canals` and the `_canals` dict
keyed by the integers `1..count`. -/
structure StatefulIsoTurnNCControl where
  count_of_canals : ℕ
  canals : ℤ → Option Canal

/-- `StatefulIsoTurnNCControl.__init__` with default names `C1..CN`. -/
def mkControl (count : ℕ) : StatefulIsoTurnNCControl where
  count_of_canals := count
  canals := fun k =>
    if 1 ≤ k ∧ k ≤ (count : ℤ) then some (mkCanal ("C" ++ toString k)) else none

/-- `StatefulIsoTurnNCControl.get_canal_name`. -/
def StatefulIsoTurnNCControl.get_canal_name (ctl : StatefulIsoTurnNCControl)
    (canal : ℤ) : String :=
  match ctl.canals canal with
  | some c => c.name
  | none => "C" ++ toString canal

/-- `StatefulIsoTurnNCControl.get_tool_path`. -/
def StatefulIsoTurnNCControl.get_tool_path (ctl : StatefulIsoTurnNCControl)
    (canal : ℤ) : List (List Point × ℝ) :=
  match ctl.canals canal with
  | some c => c.tool_path
  | none => []

/-- `StatefulIsoTurnNCControl.get_exected_nodes`. -/
def StatefulIsoTurnNCControl.get_exected_nodes (ctl : StatefulIsoTurnNCControl)
    (canal : ℤ) : List NCCommandNode :=
  match ctl.canals canal with
  | some c => c.nodes
  | none => []

/-- `StatefulIsoTurnNCControl.run_nc_code_list`: raises `IndexError` for a
missing canal, otherwise delegates the run to the selected canal (the canal
run, whose chain is parameterised here, replaces that canal's stored state). -/
def StatefulIsoTurnNCControl.run_nc_code_list (ctl : StatefulIsoTurnNCControl)
    (run1 : Canal → List NCCommandNode → Canal) (lst : List NCCommandNode)
    (canal : ℤ) : Except String StatefulIsoTurnNCControl :=
  match ctl.canals canal with
  | none => .error ("Canal " ++ toString canal ++ " not configured")
  | some c =>
    .ok { ctl with
      canals := fun k => if k = canal then some (run1 c lst) else ctl.canals k }

/-! Concrete fixtures used by witnesses and counterexamples. -/

/-- An engine step that emits nothing and leaves state and pointers alone. -/
noncomputable def tstep : EngineStep := fun _ s p => .ok (none, s, p)

/-- An engine step whose pointer rewriting makes nodes 0 and 1 jump to each
other forever: the behaviour of an unbounded control-flow loop. -/
noncomputable def cycStep : EngineStep :=
  fun _ s _ => .ok (none, s, fun j => if j = 0 then some 1 else some 0)

/-- Node `G1 U5`. -/
def nodeG1U5 : NCCommandNode where
  g_code := ["G1"]
  m_code := []
  command_parameter := [("U", 5)]
  loop_command := ""

/-- Node `G1 X0`. -/
def nodeG1X0 : NCCommandNode where
  g_code := ["G1"]
  m_code := []
  command_parameter := [("X", 0)]
  loop_command := ""

/-- A state whose `X` position is 3 (no distance modal set, hence absolute). -/
noncomputable def stateX3 : CNCState :=
  { initState with axes := fun ax =>
      if ax = "X" then some 3 else if ax = "Y" ∨ ax = "Z" then some 0 else none }

/-- End map targeting `X = 1`, `Y = Z = 0`. -/
noncomputable def endX1 : AxisMap :=
  fun ax => if ax = "X" then some 1 else if ax = "Y" ∨ ax = "Z" then some 0 else none

/-- Arc parameters `I=1, R=5` (center given by I/J, R also present). -/
noncomputable def paramsIR : String → Option ℝ :=
  fun k => if k = "I" then some 1 else if k = "R" then some 5 else none

/-- Arc parameters `R = 1/2` only. -/
noncomputable def paramsRHalf : String → Option ℝ :=
  fun k => if k = "R" then some (1/2) else none

/-- Incremental spec `X += 1`. -/
noncomputable def deltaX1 : AxisMap := fun ax => if ax = "X" then some 1 else none

/-- Incremental spec `X += 2`. -/
noncomputable def deltaX2 : AxisMap := fun ax => if ax = "X" then some 2 else none

/-- Total delta of `deltaX1` then `deltaX2`. -/
noncomputable def deltaSum : String → ℝ := fun ax => if ax = "X" then 3 else 0

/-! ## Theorems -/

/-- C9: for a canal index with no configured canal, `get_tool_path` and
`get_exected_nodes` return the empty sequence, `get_canal_name` returns the
sentinel `"C<canal>"`, and `run_nc_code_list` signals an out-of-range error;
for a configured index each method delegates to that canal. -/
theorem controller_dispatch (ctl : StatefulIsoTurnNCControl)
    (run1 : Canal → List NCCommandNode → Canal) (lst : List NCCommandNode)
    (canal : ℤ) :
    (ctl.canals canal = none →
      ctl.get_tool_path canal = [] ∧
      ctl.get_exected_nodes canal = [] ∧
      ctl.get_canal_name canal = "C" ++ toString canal ∧
      isErr (ctl.run_nc_code_list run1 lst canal) = true)
    ∧ (∀ c, ctl.canals canal = some c →
      ctl.get_tool_path canal = c.tool_path ∧
      ctl.get_exected_nodes canal = c.nodes ∧
      ctl.get_canal_name canal = c.name ∧
      ctl.run_nc_code_list run1 lst canal =
        .ok { ctl with canals :=
          fun k => if k = canal then some (run1 c lst) else ctl.canals k }) := by
  constructor
  · intro h
    simp [StatefulIsoTurnNCControl.get_tool_path,
      StatefulIsoTurnNCControl.get_exected_nodes,
      StatefulIsoTurnNCControl.get_canal_name,
      StatefulIsoTurnNCControl.run_nc_code_list, h, isErr]
  · intro c h
    simp [StatefulIsoTurnNCControl.get_tool_path,
      StatefulIsoTurnNCControl.get_exected_nodes,
      StatefulIsoTurnNCControl.get_canal_name,
      StatefulIsoTurnNCControl.run_nc_code_list, h]

/-- Witness for C9 on a one-canal control: index 2 is missing, index 1
is configured. -/
theorem controller_dispatch_witness :
    ((mkControl 1).get_tool_path 2 = [] ∧
      (mkControl 1).get_exected_nodes 2 = [] ∧
      (mkControl 1).get_canal_name 2 = "C" ++ toString (2 : ℤ) ∧
      isErr ((mkControl 1).run_nc_code_list (fun c _ => c) [] 2) = true)
    ∧ (mkControl 1).get_tool_path 1 = (mkCanal ("C" ++ toString (1 : ℤ))).tool_path :=
  ⟨(controller_dispatch (mkControl 1) (fun c _ => c) [] 2).1
      (by norm_num [mkControl]),
    ((controller_dispatch (mkControl 1) (fun c _ => c) [] 1).2
      (mkCanal ("C" ++ toString (1 : ℤ))) (by norm_num [mkControl])).1⟩

/-- C10: for a center derived from a non-zero `R` with a non-zero chord,
even when `R^2` is smaller than a quarter of the squared chord length the
computation does not fail: the square-root argument is clamped to 0, the
offset `h` vanishes and the chosen center is the chord midpoint. -/
theorem arc_center_clamped (sx sy ex ey : ℝ) (params : String → Option ℝ)
    (cw : Bool) (r : ℝ)
    (hI : params "I" = none) (hJ : params "J" = none)
    (hR : params "R" = some r) (hr : r ≠ 0)
    (hchord : (ex - sx) * (ex - sx) + (ey - sy) * (ey - sy) ≠ 0)
    (himp : r * r < ((ex - sx) * (ex - sx) + (ey - sy) * (ey - sy)) / 4) :
    arcCenter sx sy ex ey params cw = .ok ((sx + ex) / 2, (sy + ey) / 2) := by
  have hmax : max 0 (r * r - ((ex - sx) * (ex - sx) + (ey - sy) * (ey - sy)) / 4) = 0 :=
    max_eq_left (by linarith)
  unfold arcCenter
  rw [hI, hJ, hR]
  simp only [Option.isSome_none, Bool.false_eq_true, or_self, if_false,
    Option.isSome_some, Option.getD_some, true_and]
  rw [if_pos hr, if_neg hchord, hmax]
  simp [Real.sqrt_zero]

/-- Witness for C10: start `(0,0)`, end `(2,0)`, `R = 1/2` (impossible:
`R² = 1/4 < 1`); the center is the midpoint `(1, 0)`. -/
theorem arc_center_clamped_witness :
    arcCenter 0 0 2 0 paramsRHalf true = .ok ((0 + 2) / 2, (0 + 0) / 2) :=
  arc_center_clamped 0 0 2 0 paramsRHalf true (1/2)
    (by simp only [paramsRHalf]; exact if_neg (by decide))
    (by simp only [paramsRHalf]; exact if_neg (by decide))
    (by simp [paramsRHalf])
    (by norm_num) (by norm_num) (by norm_num)

/-- Recording a duration keeps non-negativity. -/
theorem durOr0_nonneg (d : Option ℝ) (h : 0 ≤ d.getD 0) : 0 ≤ durOr0 d := by
  cases d with
  | none => simp [durOr0]
  | some v =>
    simp only [durOr0]
    split_ifs with hv
    · exact le_refl 0
    · simpa using h

/-- The linear-interpolation duration is non-negative for every feed value. -/
theorem linear_duration_nonneg (ms : ℝ) (start endm : AxisMap) (st : CNCState) :
    0 ≤ (_linear_interpolate ms start endm st).2 := by
  unfold _linear_interpolate
  by_cases hd : compute_distance start endm ["X", "Y", "Z"] ≤ 0
  · simp [hd]
  · push_neg at hd
    simp only [if_neg (not_le_of_lt hd)]
    split_ifs with hf
    · exact le_of_lt (div_pos hd hf)
    · exact le_refl 0

/-- The arc duration is non-negative for every feed value. -/
theorem arc_duration_nonneg (ms : ℝ) (start endm : AxisMap) (st : CNCState)
    (cw : Bool) (cx cy : ℝ) : 0 ≤ (arcEmit ms start endm st cw cx cy).2 := by
  have hlen : 0 ≤ arc_length start endm cw cx cy :=
    mul_nonneg (abs_nonneg _) (Real.sqrt_nonneg _)
  simp only [arcEmit]
  split_ifs with hf
  · exact div_nonneg hlen (le_of_lt hf)
  · exact le_refl 0

/-- Engine loop: every entry appended to the tool path has a non-negative
duration when the chain only emits non-negative (or `None`) durations. -/
theorem runLoop_path_nonneg (step : EngineStep)
    (hstep : ∀ i s p out, step i s p = .ok out →
      ∀ pd, out.1 = some pd → 0 ≤ (pd.2).getD 0) :
    ∀ fuel node st ptr path steps path' k,
      (∀ pr ∈ path, 0 ≤ pr.2) →
      runLoop step node st ptr path fuel steps = .ok (path', k) →
      ∀ pr ∈ path', 0 ≤ pr.2 := by
  intro fuel
  induction fuel with
  | zero =>
    intro node st ptr path steps path' k hp hrun
    cases node <;> simp [runLoop] at hrun <;> exact hrun.1 ▸ hp
  | succ fuel ih =>
    intro node st ptr path steps path' k hp hrun
    cases node with
    | none =>
      simp [runLoop] at hrun
      exact hrun.1 ▸ hp
    | some i =>
      rw [runLoop] at hrun
      cases hcall : step i st ptr with
      | error e => rw [hcall] at hrun; exact absurd hrun (by simp)
      | ok out =>
        obtain ⟨emit, st', ptr'⟩ := out
        rw [hcall] at hrun
        dsimp only at hrun
        have hp' : ∀ pr ∈ (match emit with
            | none => path
            | some pd => path ++ [(pd.1, durOr0 pd.2)]), 0 ≤ pr.2 := by
          cases emit with
          | none => exact hp
          | some pd =>
            intro pr hpr
            rcases List.mem_append.mp hpr with hin | hin
            · exact hp pr hin
            · rcases List.mem_singleton.mp hin with rfl
              exact durOr0_nonneg _ (hstep i st ptr _ hcall pd rfl)
        by_cases hnxt : ptr' i = some i
        · rw [if_pos hnxt] at hrun
          simp at hrun
          exact hrun.1 ▸ hp'
        · rw [if_neg hnxt] at hrun
          exact ih _ _ _ _ _ _ _ hp' hrun

/-- Engine loop: the executed step count is bounded by the fuel. -/
theorem runLoop_steps_le (step : EngineStep) :
    ∀ fuel node st ptr path steps path' k,
      runLoop step node st ptr path fuel steps = .ok (path', k) →
      k ≤ steps + fuel := by
  intro fuel
  induction fuel with
  | zero =>
    intro node st ptr path steps path' k hrun
    cases node <;> simp [runLoop] at hrun <;> omega
  | succ fuel ih =>
    intro node st ptr path steps path' k hrun
    cases node with
    | none => simp [runLoop] at hrun; omega
    | some i =>
      rw [runLoop] at hrun
      cases hcall : step i st ptr with
      | error e => rw [hcall] at hrun; exact absurd hrun (by simp)
      | ok out =>
        obtain ⟨emit, st', ptr'⟩ := out
        rw [hcall] at hrun
        dsimp only at hrun
        by_cases hnxt : ptr' i = some i
        · rw [if_pos hnxt] at hrun
          simp at hrun
          omega
        · rw [if_neg hnxt] at hrun
          have := ih _ _ _ _ _ _ _ hrun
          omega

/-- Engine loop: if no chain call errors, the loop never errors — in
particular running out of fuel returns the accumulated path normally. -/
theorem runLoop_no_error (step : EngineStep)
    (hs : ∀ i s p, isErr (step i s p) = false) :
    ∀ fuel node st ptr path steps,
      isErr (runLoop step node st ptr path fuel steps) = false := by
  intro fuel
  induction fuel with
  | zero =>
    intro node st ptr path steps
    cases node <;> simp [runLoop, isErr]
  | succ fuel ih =>
    intro node st ptr path steps
    cases node with
    | none => simp [runLoop, isErr]
    | some i =>
      rw [runLoop]
      cases hcall : step i st ptr with
      | error e => exact absurd (hcall ▸ hs i st ptr) (by simp [isErr])
      | ok out =>
        obtain ⟨emit, st', ptr'⟩ := out
        dsimp only
        by_cases hnxt : ptr' i = some i
        · rw [if_pos hnxt]; simp [isErr]
        · rw [if_neg hnxt]; exact ih _ _ _ _ _

/-- C8: handler durations are non-negative for every feed value (unset,
zero or negative feeds included); `None` is recorded in the tool path as 0,
and every duration the engine records stays non-negative. -/
theorem durations_nonneg :
    (∀ ms start endm st, 0 ≤ (_linear_interpolate ms start endm st).2)
    ∧ (∀ ms start endm st cw cx cy, 0 ≤ (arcEmit ms start endm st cw cx cy).2)
    ∧ durOr0 none = 0
    ∧ (∀ d : Option ℝ, 0 ≤ d.getD 0 → 0 ≤ durOr0 d)
    ∧ (∀ step n st₀ path k,
        (∀ i s p out, step i s p = .ok out →
          ∀ pd, out.1 = some pd → 0 ≤ (pd.2).getD 0) →
        run_nc_code_list step n st₀ = .ok (path, k) →
        ∀ pr ∈ path, 0 ≤ pr.2) := by
  refine ⟨linear_duration_nonneg, arc_duration_nonneg, by simp [durOr0],
    durOr0_nonneg, ?_⟩
  intro step n st₀ path k hstep hrun
  exact runLoop_path_nonneg step hstep _ _ _ _ _ _ _ _ (by simp) hrun

/-- Witness for C8: recording the duration `1` (a hypothesis-bearing part)
and a concrete linear duration. -/
theorem durations_nonneg_witness :
    0 ≤ durOr0 (some 1) ∧ 0 ≤ (_linear_interpolate 1 initState.axes endX1 initState).2 :=
  ⟨durations_nonneg.2.2.2.1 (some 1) (by norm_num),
    durations_nonneg.1 1 initState.axes endX1 initState⟩

/-- C2 (amended): `run_nc_code_list` executes at most
`max(10000, numNodes · 100)` loop iterations, and when no chain call errors
the run never signals an error — a program that would exceed the bound is
silently truncated rather than aborted with a bounds error. -/
theorem engine_step_bound (step : EngineStep) (n : ℕ) (st : CNCState) :
    (∀ path k, run_nc_code_list step n st = .ok (path, k) → k ≤ max_steps n)
    ∧ ((∀ i s p, isErr (step i s p) = false) →
        isErr (run_nc_code_list step n st) = false) := by
  constructor
  · intro path k hrun
    unfold run_nc_code_list at hrun
    have h := runLoop_steps_le step (max_steps n) _ _ _ _ _ _ _ hrun
    omega
  · intro hs
    unfold run_nc_code_list
    exact runLoop_no_error step hs _ _ _ _ _ _

/-- Witness for C2: the empty program runs no steps and does not error. -/
theorem engine_step_bound_witness :
    (0 : ℕ) ≤ max_steps 0 ∧ isErr (run_nc_code_list tstep 0 initState) = false :=
  ⟨(engine_step_bound tstep 0 initState).1 [] 0
      (by simp [run_nc_code_list, runLoop]),
    (engine_step_bound tstep 0 initState).2 (fun i s p => rfl)⟩

/-- The two-node jump cycle never errors and consumes all its fuel. -/
theorem cycStep_runLoop :
    ∀ fuel st ptr path steps i, i ≤ 1 →
      runLoop cycStep (some i) st ptr path fuel steps = .ok (path, steps + fuel) := by
  intro fuel
  induction fuel with
  | zero => intro st ptr path steps i hi; simp [runLoop]
  | succ fuel ih =>
    intro st ptr path steps i hi
    rw [runLoop]
    simp only [cycStep]
    rcases Nat.le_one_iff_eq_zero_or_eq_one.mp hi with rfl | rfl
    · norm_num
      rw [show steps + (fuel + 1) = (steps + 1) + fuel by omega]
      exact ih st _ path (steps + 1) 1 le_rfl
    · norm_num
      rw [show steps + (fuel + 1) = (steps + 1) + fuel by omega]
      exact ih st _ path (steps + 1) 0 (by norm_num)

/-- C2 counterexample: a two-node program whose chain keeps the engine
jumping between node 0 and node 1 forever is cut off by the step bound, yet
the run returns normally: no bounds error is signalled. -/
theorem engine_bound_no_abort_cex :
    run_nc_code_list cycStep 2 initState = .ok ([], max_steps 2) ∧
    isErr (run_nc_code_list cycStep 2 initState) = false := by
  have h : run_nc_code_list cycStep 2 initState = .ok ([], max_steps 2) := by
    unfold run_nc_code_list
    norm_num
    have := cycStep_runLoop (max_steps 2) initState
      (fun i => if i + 1 < 2 then some (i + 1) else none) [] 0 0 (by norm_num)
    simpa using this
  exact ⟨h, by rw [h]; rfl⟩

/-- `atan2` values lie in `(-π, π]`. -/
theorem atan2_mem_Ioc (y x : ℝ) : atan2 y x ∈ Set.Ioc (-Real.pi) Real.pi :=
  ⟨Complex.neg_pi_lt_arg _, Complex.arg_le_pi _⟩

/-- `atan2 0 (-1) = π`. -/
theorem atan2_zero_neg_one : atan2 0 (-1) = Real.pi := by
  unfold atan2
  rw [show ({ re := -1, im := 0 } : ℂ) = -1 by apply Complex.ext <;> simp,
    Complex.arg_neg_one]

/-- Normalised sweep of angles drawn from `(-π, π]`: clockwise sweeps land in
`(-2π, 0]`, counter-clockwise sweeps in `[0, 2π)`. -/
theorem sweepAngle_range (a0 a1 : ℝ) (h0 : a0 ∈ Set.Ioc (-Real.pi) Real.pi)
    (h1 : a1 ∈ Set.Ioc (-Real.pi) Real.pi) :
    sweepAngle a0 a1 true ∈ Set.Ioc (-(2 * Real.pi)) 0 ∧
    sweepAngle a0 a1 false ∈ Set.Ico 0 (2 * Real.pi) := by
  obtain ⟨h0l, h0r⟩ := h0
  obtain ⟨h1l, h1r⟩ := h1
  have hpi := Real.pi_pos
  constructor <;>
  · simp only [sweepAngle, Set.mem_Ioc, Set.mem_Ico]
    norm_num
    split_ifs with h <;> constructor <;> linarith

/-- C5 counterexample: an arc whose start and end angles coincide (start
point equal to end point, center `(1,0)` from `I=1`) has normalised sweep
exactly 0, which is outside the claimed open interval `(-2π, 0)` for G2. -/
theorem sweep_open_interval_cex :
    ¬ (arcSweep initState.axes initState.axes true 1 0 ∈
        Set.Ioo (-(2 * Real.pi)) 0) := by
  have hz : arcSweep initState.axes initState.axes true 1 0 = 0 := by
    unfold arcSweep
    simp only [initState]
    norm_num
    rw [atan2_zero_neg_one]
    simp [sweepAngle]
  rw [hz]
  simp [Set.mem_Ioo]

/-- C5 (amended): the normalised sweep (end angle minus start angle,
adjusted by 2π once if its sign disagrees with the rotation sense) lies in
the half-open interval `(-2π, 0]` for clockwise G2 and `[0, 2π)` for
counter-clockwise G3; it is 0 exactly in the degenerate case where the end
angle equals the start angle. -/
theorem sweep_range (start endm : AxisMap) (cx cy : ℝ) :
    arcSweep start endm true cx cy ∈ Set.Ioc (-(2 * Real.pi)) 0 ∧
    arcSweep start endm false cx cy ∈ Set.Ico 0 (2 * Real.pi) := by
  unfold arcSweep
  exact ⟨(sweepAngle_range _ _ (atan2_mem_Ioc _ _) (atan2_mem_Ioc _ _)).1,
    (sweepAngle_range _ _ (atan2_mem_Ioc _ _) (atan2_mem_Ioc _ _)).2⟩

/-- The center computation fails exactly when I and J are both missing and
either R is missing/zero or the chord is degenerate. -/
theorem arcCenter_error_iff (sx sy ex ey : ℝ) (params : String → Option ℝ)
    (cw : Bool) :
    isErr (arcCenter sx sy ex ey params cw) = true ↔
      ((params "I").isSome = false ∧ (params "J").isSome = false ∧
        (params "R" = none ∨ (params "R").getD 0 = 0 ∨
          (ex - sx) * (ex - sx) + (ey - sy) * (ey - sy) = 0)) := by
  unfold arcCenter
  by_cases h1 : (params "I").isSome ∨ (params "J").isSome
  · rw [if_pos h1]
    simp only [isErr, Bool.false_eq_true, false_iff]
    rintro ⟨hI, hJ, -⟩
    rcases h1 with h | h
    · rw [hI] at h; exact absurd h (by simp)
    · rw [hJ] at h; exact absurd h (by simp)
  · rw [if_neg h1]
    push_neg at h1
    obtain ⟨hI, hJ⟩ := h1
    by_cases h2 : (params "R").isSome ∧ (params "R").getD 0 ≠ 0
    · rw [if_pos h2]
      by_cases h3 : (ex - sx) * (ex - sx) + (ey - sy) * (ey - sy) = 0
      · rw [if_pos h3]
        simp only [isErr, true_iff]
        exact ⟨by simpa using hI, by simpa using hJ, Or.inr (Or.inr h3)⟩
      · rw [if_neg h3]
        have hok : isErr (if cw then
            (Except.ok ((sx + ex) / 2 -
                Real.sqrt (max 0 ((params "R").getD 0 * (params "R").getD 0 -
                  ((ex - sx) * (ex - sx) + (ey - sy) * (ey - sy)) / 4)) /
                  Real.sqrt ((ex - sx) * (ex - sx) + (ey - sy) * (ey - sy)) *
                  (ey - sy),
                (sy + ey) / 2 +
                Real.sqrt (max 0 ((params "R").getD 0 * (params "R").getD 0 -
                  ((ex - sx) * (ex - sx) + (ey - sy) * (ey - sy)) / 4)) /
                  Real.sqrt ((ex - sx) * (ex - sx) + (ey - sy) * (ey - sy)) *
                  (ex - sx)) : Except String (ℝ × ℝ))
          else
            .ok ((sx + ex) / 2 +
                Real.sqrt (max 0 ((params "R").getD 0 * (params "R").getD 0 -
                  ((ex - sx) * (ex - sx) + (ey - sy) * (ey - sy)) / 4)) /
                  Real.sqrt ((ex - sx) * (ex - sx) + (ey - sy) * (ey - sy)) *
                  (ey - sy),
                (sy + ey) / 2 -
                Real.sqrt (max 0 ((params "R").getD 0 * (params "R").getD 0 -
                  ((ex - sx) * (ex - sx) + (ey - sy) * (ey - sy)) / 4)) /
                  Real.sqrt ((ex - sx) * (ex - sx) + (ey - sy) * (ey - sy)) *
                  (ex - sx))) = false := by
          cases cw <;> simp [isErr]
        rw [hok]
        simp only [Bool.false_eq_true, false_iff]
        rintro ⟨-, -, hR | hR | hR⟩
        · rw [hR] at h2; exact absurd h2.1 (by simp)
        · exact h2.2 hR
        · exact h3 hR
    · rw [if_neg h2]
      simp only [isErr, true_iff]
      refine ⟨by simpa using hI, by simpa using hJ, ?_⟩
      rcases Decidable.not_and_iff_or_not.mp h2 with h | h
      · exact Or.inl (Option.not_isSome_iff_eq_none.mp (by simpa using h))
      · exact Or.inr (Or.inl (by simpa using h))

/-- C6 (amended): a circular move raises an interpretation error exactly
when I and J are both absent and, in addition, R is absent or zero, or the
chord from start to end has zero length. (When I or J is present no error
is raised, whatever R and the chord are.) -/
theorem circular_error_iff (ms : ℝ) (start endm : AxisMap)
    (params : String → Option ℝ) (st : CNCState) (cw : Bool) :
    isErr (_circular_interpolate ms start endm params st cw) = true ↔
      ((params "I").isSome = false ∧ (params "J").isSome = false ∧
        (params "R" = none ∨ (params "R").getD 0 = 0 ∨
          chord2 start endm = 0)) := by
  have key : isErr (_circular_interpolate ms start endm params st cw) =
      isErr (arcCenter ((start "X").getD 0) ((start "Y").getD 0)
        ((endm "X").getD ((start "X").getD 0))
        ((endm "Y").getD ((start "Y").getD 0)) params cw) := by
    unfold _circular_interpolate
    cases h : arcCenter ((start "X").getD 0) ((start "Y").getD 0)
        ((endm "X").getD ((start "X").getD 0))
        ((endm "Y").getD ((start "Y").getD 0)) params cw <;>
      simp [h, isErr]
  rw [key, arcCenter_error_iff]
  unfold chord2
  tauto

/-- C6 counterexample: with `I = 1` present, `R = 5` non-zero and a
zero-length chord (start = end), the code raises no error although the
claim's condition (b) — R present and non-zero with a zero chord — holds. -/
theorem circular_error_claim_cex :
    isErr (_circular_interpolate (1/2) initState.axes initState.axes paramsIR
        initState true) = false ∧
      (paramsIR "R").isSome = true ∧ (paramsIR "R").getD 0 ≠ 0 ∧
      chord2 initState.axes initState.axes = 0 := by
  refine ⟨?_, by simp +decide [paramsIR], by simp +decide [paramsIR],
    by simp [chord2, initState]⟩
  exact rfl

/-- `update_axes` evaluated at one axis. -/
theorem update_axes_apply (s : CNCState) (u : AxisMap) (ax : String) :
    (s.update_axes u).axes ax =
      match u ax with
      | some v => some v
      | none => s.axes ax := rfl

/-- A `false` `isSome` means the option is `none`. -/
theorem isSome_false_eq_none {α : Type _} (o : Option α) (h : o.isSome = false) :
    o = none := by
  cases o with
  | none => rfl
  | some v => simp at h

/-- A resolved target is `none` on an axis only if that axis was absent. -/
theorem resolve_target_none (s : CNCState) (spec : AxisMap) (b : Bool) (ax : String)
    (h : s.resolve_target spec b ax = none) : s.axes ax = none := by
  unfold CNCState.resolve_target at h
  by_cases hc : ((s.axes ax).isSome || (spec ax).isSome) = true
  · rw [if_pos hc] at h
    cases b <;> simp at h
  · simp only [Bool.or_eq_true, not_or, Bool.not_eq_true] at hc
    exact isSome_false_eq_none _ hc.1

/-- Resolving an axis the target spec does not mention keeps its position. -/
theorem resolve_target_unspec (s : CNCState) (spec : AxisMap) (b : Bool) (ax : String)
    (h : spec ax = none) : (s.resolve_target spec b ax).getD 0 = s.get_axis ax := by
  unfold CNCState.resolve_target
  by_cases hc : ((s.axes ax).isSome || (spec ax).isSome) = true
  · rw [if_pos hc]
    cases b <;> simp [h]
  · rw [if_neg hc]
    simp only [Bool.or_eq_true, not_or, Bool.not_eq_true] at hc
    unfold CNCState.get_axis
    rw [isSome_false_eq_none _ hc.1]

/-- One incremental move adds the spec's delta (0 for unmentioned axes). -/
theorem moveAxes_incr_get (st : CNCState) (d : AxisMap) (ax : String) :
    (moveAxes st d false).get_axis ax = st.get_axis ax + (d ax).getD 0 := by
  unfold moveAxes CNCState.get_axis CNCState.resolve_target
  rw [update_axes_apply]
  by_cases hc : ((st.axes ax).isSome || (d ax).isSome) = true
  · rw [if_pos hc]
    norm_num [CNCState.get_axis]
  · rw [if_neg hc]
    simp only [Bool.or_eq_true, not_or, Bool.not_eq_true] at hc
    rw [isSome_false_eq_none _ hc.1, isSome_false_eq_none _ hc.2]
    simp

/-- One absolute move with a total target spec lands exactly on the target. -/
theorem moveAxes_abs_total_get (st : CNCState) (f : String → ℝ) (ax : String) :
    (moveAxes st (fun a => some (f a)) true).get_axis ax = f ax := by
  unfold moveAxes CNCState.get_axis
  rw [update_axes_apply]
  have hc : ((st.axes ax).isSome || (some (f ax)).isSome) = true := by simp
  unfold CNCState.resolve_target
  rw [if_pos hc]
  simp

/-- Folding incremental moves adds the componentwise sum of the deltas. -/
theorem moveAxes_incr_fold (specs : List AxisMap) :
    ∀ (st : CNCState) (ax : String),
      (specs.foldl (fun s d => moveAxes s d false) st).get_axis ax
        = st.get_axis ax + (specs.map (fun d => (d ax).getD 0)).sum := by
  induction specs with
  | nil => intro st ax; simp
  | cons d rest ih =>
    intro st ax
    simp only [List.foldl_cons, List.map_cons, List.sum_cons]
    rw [ih, moveAxes_incr_get]
    ring

/-- C3: a G91 program whose deltas sum to Δ leaves every axis exactly where
the single G90 move that targets `start + Δ` leaves it. -/
theorem g91_roundtrip (st : CNCState) (specs : List AxisMap) (Δ : String → ℝ)
    (h : ∀ ax, Δ ax = (specs.map (fun d => (d ax).getD 0)).sum) (ax : String) :
    (specs.foldl (fun s d => moveAxes s d false) st).get_axis ax
      = (moveAxes st (fun a => some (st.get_axis a + Δ a)) true).get_axis ax := by
  rw [moveAxes_incr_fold, moveAxes_abs_total_get, h]

/-- Witness for C3: deltas `X+=1` then `X+=2` equal one absolute move to
`start.X + 3`. -/
theorem g91_roundtrip_witness :
    ([deltaX1, deltaX2].foldl (fun s d => moveAxes s d false) initState).get_axis "X"
      = (moveAxes initState
          (fun a => some (initState.get_axis a + deltaSum a)) true).get_axis "X" :=
  g91_roundtrip initState [deltaX1, deltaX2] deltaSum
    (by
      intro ax
      by_cases hx : ax = "X" <;> norm_num [deltaX1, deltaX2, deltaSum, hx])
    "X"

/-- C7: when a motion node completes, the state's axes equal the resolved
target on every axis (in particular the resolved end position on every axis
the node references), axes the node does not reference keep their position,
and no other `CNCState` field changes. -/
theorem motion_updates_axes_only (ms : ℝ) (node : NCCommandNode) (st : CNCState)
    (res : Option (List Point × ℝ)) (st' : CNCState)
    (hm : (interpMode node).isSome = true)
    (h : handle ms node st = .ok (res, st')) :
    (∀ ax, st'.axes ax =
      st.resolve_target (buildTargetSpec node.command_parameter) (absoluteMode st) ax)
    ∧ (∀ ax, buildTargetSpec node.command_parameter ax = none →
        st'.get_axis ax = st.get_axis ax)
    ∧ st'.modal_groups = st.modal_groups ∧ st'.offsets = st.offsets
    ∧ st'.axis_multipliers = st.axis_multipliers
    ∧ st'.axis_override_feeds = st.axis_override_feeds
    ∧ st'.feed_rate = st.feed_rate ∧ st'.spindle_speed = st.spindle_speed
    ∧ st'.tool_radius = st.tool_radius ∧ st'.tool_quadrant = st.tool_quadrant
    ∧ st'.parameters = st.parameters ∧ st'.dddp_set = st.dddp_set
    ∧ st'.line_number = st.line_number ∧ st'.loop_command = st.loop_command := by
  obtain ⟨im, him⟩ := Option.isSome_iff_exists.mp hm
  unfold handle at h
  rw [him] at h
  dsimp only at h
  have hst' : st' = st.update_axes
      (st.resolve_target (buildTargetSpec node.command_parameter) (absoluteMode st)) := by
    cases hres : (if im = "G01" ∨ im = "G00" then
        Except.ok (_linear_interpolate ms st.axes
          (st.resolve_target (buildTargetSpec node.command_parameter)
            (absoluteMode st)) st)
      else _circular_interpolate ms st.axes
          (st.resolve_target (buildTargetSpec node.command_parameter)
            (absoluteMode st))
          (paramsMap node.command_parameter) st (im = "G02")) with
    | error e => rw [hres] at h; exact absurd h (by simp)
    | ok pd =>
      rw [hres] at h
      simp only [Except.ok.injEq, Prod.mk.injEq] at h
      exact h.2.symm
  subst hst'
  refine ⟨?_, ?_, rfl, rfl, rfl, rfl, rfl, rfl, rfl, rfl, rfl, rfl, rfl, rfl⟩
  · intro ax
    rw [update_axes_apply]
    cases hr : st.resolve_target (buildTargetSpec node.command_parameter)
        (absoluteMode st) ax with
    | some v => rfl
    | none => exact resolve_target_none _ _ _ _ hr
  · intro ax hnone
    have h1 : (st.update_axes (st.resolve_target
        (buildTargetSpec node.command_parameter) (absoluteMode st))).get_axis ax
        = (st.resolve_target (buildTargetSpec node.command_parameter)
            (absoluteMode st) ax).getD 0 := by
      unfold CNCState.get_axis
      rw [update_axes_apply]
      cases hr : st.resolve_target (buildTargetSpec node.command_parameter)
          (absoluteMode st) ax with
      | some v => rfl
      | none => rw [resolve_target_none _ _ _ _ hr]
    rw [h1, resolve_target_unspec _ _ _ _ hnone]

/-- Witness for C7: executing `G1 X0` from the default state; the motion
handler leaves `modal_groups` untouched. -/
theorem motion_updates_axes_only_witness :
    (initState.update_axes (initState.resolve_target
        (buildTargetSpec nodeG1X0.command_parameter)
        (absoluteMode initState))).modal_groups = initState.modal_groups :=
  (motion_updates_axes_only (1/2) nodeG1X0 initState
    (some (_linear_interpolate (1/2) initState.axes
      (initState.resolve_target (buildTargetSpec nodeG1X0.command_parameter)
        (absoluteMode initState)) initState))
    (initState.update_axes (initState.resolve_target
      (buildTargetSpec nodeG1X0.command_parameter) (absoluteMode initState)))
    (by decide)
    (by
      unfold handle
      rw [show interpMode nodeG1X0 = some "G01" from by decide]
      dsimp only
      rw [if_pos (Or.inl rfl : ("G01" : String) = "G01" ∨ ("G01" : String) = "G00")]
      )).2.2.1

/-- C1 is contradicted by the code: from `X = 3` with the distance modal
unset (absolute G90 default), the node `G1 U5` leaves `X` at 5 — the U value
is applied as an absolute X target — while a delta application, as the code's
own comment promises, would give `3 + 5 = 8 ≠ 5`. -/
theorem uvw_g90_applied_absolute :
    (handle (1/2) nodeG1U5 stateX3).map (fun r => r.2.get_axis "X") = .ok 5 ∧
    stateX3.get_axis "X" + 5 ≠ (5 : ℝ) := by
  have hspec : buildTargetSpec nodeG1U5.command_parameter =
      fun ax => if ax = "X" then some 5 else none := by
    funext ax
    simp +decide [buildTargetSpec, nodeG1U5, show strUpper "U" = "U" from by decide]
  have hmode : absoluteMode stateX3 = true := rfl
  have hres : stateX3.resolve_target (buildTargetSpec nodeG1U5.command_parameter)
      (absoluteMode stateX3) "X" = some 5 := by
    rw [hspec, hmode]
    simp +decide [CNCState.resolve_target, stateX3]
  constructor
  · unfold handle
    rw [show interpMode nodeG1U5 = some "G01" from by decide]
    dsimp only
    rw [if_pos (Or.inl rfl : ("G01" : String) = "G01" ∨ ("G01" : String) = "G00")]
    dsimp only [Except.map]
    simp only [Except.ok.injEq]
    unfold CNCState.get_axis
    rw [update_axes_apply, hres]
    rfl
  · have h3 : stateX3.get_axis "X" = 3 := by
      unfold CNCState.get_axis
      simp +decide [stateX3]
    rw [h3]
    norm_num

/-- When the end map covers the start map's keys, falling back to the start
value inside `getD` is the same as falling back to 0. -/
theorem getD_cov (start endm : AxisMap) (k : String)
    (hcov : ∀ k, (start k).isSome = true → (endm k).isSome = true) :
    (endm k).getD ((start k).getD 0) = (endm k).getD 0 := by
  cases hx : endm k with
  | some v => rfl
  | none =>
    cases hs : start k with
    | none => rfl
    | some w =>
      have h := hcov k (by simp [hs])
      rw [hx] at h
      simp at h

/-- The coverage hypothesis of `segment_counts` holds wherever
`MotionHandler.handle` calls the interpolators: the resolved end map is
defined on every axis the start map (the state's axes) is defined on. -/
theorem resolve_target_covers (s : CNCState) (spec : AxisMap) (b : Bool)
    (k : String) (h : (s.axes k).isSome = true) :
    (s.resolve_target spec b k).isSome = true := by
  unfold CNCState.resolve_target
  rw [if_pos (by simp [h])]
  cases b <;> simp

/-- C4: a linear move of positive XYZ distance `d` with segment cap `s`
emits exactly `max(1, ⌈d/s⌉)` points, the last equal to the end position; a
linear move with `d ≤ 0` emits one point equal to the end position with
duration 0; a circular move of arc length `L` emits exactly
`max(2, ⌈L/s⌉)` points. -/
theorem segment_counts (s : ℝ) (start endm : AxisMap) (st : CNCState)
    (cw : Bool) (cx cy : ℝ)
    (hcov : ∀ k, (start k).isSome = true → (endm k).isSome = true) :
    (0 < compute_distance start endm ["X", "Y", "Z"] →
      (_linear_interpolate s start endm st).1.length =
        (max 1 ⌈compute_distance start endm ["X", "Y", "Z"] / s⌉).toNat ∧
      (_linear_interpolate s start endm st).1.getLast? = some (endPosition endm))
    ∧ (compute_distance start endm ["X", "Y", "Z"] ≤ 0 →
      _linear_interpolate s start endm st = ([endPosition endm], 0))
    ∧ (arcEmit s start endm st cw cx cy).1.length =
        (max 2 ⌈arc_length start endm cw cx cy / s⌉).toNat := by
  refine ⟨?_, ?_, ?_⟩
  · intro hd
    simp only [_linear_interpolate, if_neg (not_le_of_lt hd)]
    constructor
    · simp
    · set N : ℕ := (max 1 ⌈compute_distance start endm ["X", "Y", "Z"] / s⌉).toNat
        with hN
      have hn1 : 1 ≤ N := by
        have h1 := le_max_left (1 : ℤ) ⌈compute_distance start endm ["X", "Y", "Z"] / s⌉
        omega
      obtain ⟨m, hm⟩ : ∃ m, N = m + 1 := ⟨N - 1, by omega⟩
      rw [hm, List.range_succ, List.map_append]
      simp only [List.map_cons, List.map_nil, List.getLast?_concat, Option.some.injEq]
      have ht : ((m + 1 : ℕ) : ℝ) / ((m + 1 : ℕ) : ℝ) = 1 :=
        div_self (Nat.cast_ne_zero.mpr (Nat.succ_ne_zero m))
      simp only [endPosition, Point.mk.injEq, ht, mul_one]
      refine ⟨?_, ?_, ?_, by rw [getD_cov start endm _ hcov],
        by rw [getD_cov start endm _ hcov], by rw [getD_cov start endm _ hcov]⟩ <;>
      · rw [getD_cov start endm _ hcov]
        ring
  · intro hd
    simp only [_linear_interpolate, if_pos hd]
  · simp only [arcEmit]
    simp

/-- Witness for C4: a unit move in X with cap 1/2. -/
theorem segment_counts_witness :
    (_linear_interpolate (1/2) initState.axes endX1 initState).1.length =
      (max 1 ⌈compute_distance initState.axes endX1 ["X", "Y", "Z"] / (1/2)⌉).toNat ∧
    (_linear_interpolate (1/2) initState.axes endX1 initState).1.getLast? =
      some (endPosition endX1) :=
  (segment_counts (1/2) initState.axes endX1 initState true 0 0
    (by
      intro k hk
      by_cases hc : k = "X" ∨ k = "Y" ∨ k = "Z"
      · rcases hc with h | h | h <;> simp +decide [endX1, h]
      · simp [initState, hc] at hk)).1
    (by
      have h1 : compute_distance initState.axes endX1 ["X", "Y", "Z"] = 1 := by
        simp +decide [compute_distance, initState, endX1]
      rw [h1]
      norm_num)

end NCPlot
